import Mathlib

/-!
Shallow embedding of the flux-mcf Python middleware core
(`mcf_py/mcf_core/value_store.py`, `mcf_py/mcf_core/events.py`,
`mcf_py/mcf_core/component_framework.py`, `mcf_py/mcf_core/value_recorder.py`,
`mcf_py/mcf_remote/remote_service.py`, `mcf_py/mcf/record_reader.py`)
together with theorems checking the natural-language specification against it.

Conventions:
- Python `None`-able call results are `Option`; raising an exception is an
  `Except` error result.
- Timestamps are natural numbers (`datetime` in milliseconds or microseconds
  as in the source); the epoch `datetime(1970, 1, 1)` is `0`.
- Mutation of `self` becomes explicit state passing: a method returns the
  updated object alongside its Python return value.
- Per-object locks guard in-Python mutation only; the sequential semantics of
  each method body is embedded directly.
-/

namespace MCF

/-- A Python exception kind, as far as the embedded code distinguishes them. -/
inductive PyErr
| typeError
| runtimeError (msg : String)
  deriving DecidableEq, Repr

/-- Embedding of `events.Event`: a boolean flag with a permanent expired bit.
(The condition variable wait/notify machinery is thread scheduling and has no
sequential content.) -/
structure MEvent where
  flag : Bool
  expiredBit : Bool
  deriving DecidableEq, Repr

/-- `Event.trigger`: set the flag unless expired; return whether expired. -/
def MEvent.triggerEv (e : MEvent) : Bool × MEvent :=
  (e.expiredBit, if e.expiredBit then e else { e with flag := true })

/-- `EventSource._notify_events`: trigger all events, then drop the expired
ones if any trigger call reported expiry. -/
def notifyEvents (events : List MEvent) : List MEvent :=
  let triggered := events.map (fun e => (e.triggerEv).2)
  if events.any (fun e => (e.triggerEv).1) then
    triggered.filter (fun e => ¬ e.expiredBit)
  else
    triggered

/-- Embedding of `value_store.ValueQueue`: a FIFO of `(value, topic)` pairs
(front of the list is the oldest entry), bounded when `maxlen > 0`, an
`EventSource`, with an expired bit and last-receive diagnostics. -/
structure ValueQueue (α : Type) where
  maxlen : Nat
  queue : List (α × String)
  events : List MEvent
  expiredBit : Bool
  lastReceiveTopic : String
  lastReceiveTime : Nat
  deriving DecidableEq, Repr

/-- `ValueQueue.receive(topic, value)`: evict the oldest entry when bounded
and at capacity, append `(value, topic)`, record the last-received topic and
time, fire the attached events, and return whether the queue is expired. -/
def ValueQueue.receive (q : ValueQueue α) (topic : String) (value : α) (now : Nat) :
    Bool × ValueQueue α :=
  let q1 := if 0 < q.maxlen ∧ q.maxlen ≤ q.queue.length then q.queue.drop 1 else q.queue
  (q.expiredBit,
   { q with queue := q1 ++ [(value, topic)],
            lastReceiveTopic := topic,
            lastReceiveTime := now,
            events := notifyEvents q.events })

/-- `ValueQueue.peek_with_topic`: the oldest `(value, topic)` pair, or `None`
when the queue is empty; the queue is not modified. -/
def ValueQueue.peekWithTopic (q : ValueQueue α) : Option (α × String) :=
  match q.queue with
  | [] => none
  | x :: _ => some x

/-- `ValueQueue.pop_with_topic`: remove and return the oldest `(value, topic)`
pair, or `None` (leaving the queue unchanged) when the queue is empty. -/
def ValueQueue.popWithTopic (q : ValueQueue α) : Option (α × String) × ValueQueue α :=
  match q.queue with
  | [] => (none, q)
  | x :: rest => (some x, { q with queue := rest })

/-- Python subscription `r[0]` applied to the result of a `*_with_topic`
call: on `None` it raises a `TypeError`, otherwise it yields the value
component of the pair. -/
def subscriptFst (r : Option (α × String)) : Except PyErr α :=
  match r with
  | none => Except.error PyErr.typeError
  | some x => Except.ok x.1

/-- `ValueQueue.peek`: `peek_with_topic()[0]`. -/
def ValueQueue.peekFront (q : ValueQueue α) : Except PyErr α :=
  subscriptFst q.peekWithTopic

/-- `ValueQueue.pop`: `pop_with_topic()[0]`. -/
def ValueQueue.popFront (q : ValueQueue α) : Except PyErr α × ValueQueue α :=
  let r := q.popWithTopic
  (subscriptFst r.1, r.2)

/-- `ValueQueue.empty`. -/
def ValueQueue.isEmptyQ (q : ValueQueue α) : Bool :=
  q.queue.length ≤ 0

/-- Folding a sequence of `(topic, value)` receptions into a queue. -/
def ValueQueue.receiveAll (q : ValueQueue α) (items : List (String × α)) : ValueQueue α :=
  items.foldl (fun q it => (q.receive it.1 it.2 0).2) q

/-- Concrete instance data for the queue witnesses. -/
def wqEmpty : ValueQueue Nat :=
  { maxlen := 2, queue := [], events := [], expiredBit := false,
    lastReceiveTopic := "", lastReceiveTime := 0 }

/-- Concrete arrival sequence for the C4 witness. -/
def witemsC4 : List (String × Nat) := [("a", 1), ("b", 2), ("c", 3)]

/-- One entry of the `ValueStore` map: the latest value (initially `None`)
and the identities of the receivers registered on the topic, in registration
order. Receiver objects are named by numeric identities; `receive` callbacks
on them are reported as a delivery trace. -/
structure MapEntry (α : Type) where
  value : Option α
  receivers : List Nat
  deriving DecidableEq, Repr

/-- Embedding of `value_store.ValueStore`: a topic-keyed map (insertion
ordered, unique keys, as a Python `dict`) plus the all-topic receiver list. -/
structure ValueStore (α : Type) where
  store : List (String × MapEntry α)
  allTopicReceivers : List Nat
  deriving DecidableEq, Repr

/-- `dict.get(key, None)` on an insertion-ordered association list. -/
def lookupKey (key : String) : List (String × β) → Option β
  | [] => none
  | p :: rest => if p.1 = key then some p.2 else lookupKey key rest

/-- `dict[key] = e` for a key already present: replace in place. -/
def setEntry (key : String) (e : β) : List (String × β) → List (String × β)
  | [] => []
  | p :: rest => if p.1 = key then (key, e) :: rest else p :: setEntry key e rest

/-- `ValueStore._create_key_if_absent`. -/
def ValueStore.createKeyIfAbsent (s : ValueStore α) (key : String) : ValueStore α :=
  if (lookupKey key s.store).isSome then s
  else { s with store := s.store ++ [(key, { value := none, receivers := [] })] }

/-- `ValueStore.add_receiver`: register a receiver for a topic; idempotent by
identity. -/
def ValueStore.addReceiver (s : ValueStore α) (key : String) (rid : Nat) : ValueStore α :=
  let s1 := s.createKeyIfAbsent key
  match lookupKey key s1.store with
  | none => s1
  | some e =>
    if rid ∈ e.receivers then s1
    else { s1 with store := setEntry key { e with receivers := e.receivers ++ [rid] } s1.store }

/-- `ValueStore.add_all_topic_receiver`: idempotent by identity. -/
def ValueStore.addAllTopicReceiver (s : ValueStore α) (rid : Nat) : ValueStore α :=
  if rid ∈ s.allTopicReceivers then s
  else { s with allTopicReceivers := s.allTopicReceivers ++ [rid] }

/-- `ValueStore.set_value` for a non-`None` value: store the value
(last-write-wins) and produce the delivery trace of `receive` callbacks, the
all-topic receivers first, then the entry's receivers, each in registration
order. -/
def ValueStore.setValueSome (s : ValueStore α) (key : String) (v : α) :
    ValueStore α × List (Nat × String × α) :=
  let s1 := s.createKeyIfAbsent key
  let entry := (lookupKey key s1.store).getD { value := none, receivers := [] }
  ({ s1 with store := setEntry key { entry with value := some v } s1.store },
   (s1.allTopicReceivers ++ entry.receivers).map (fun rid => (rid, key, v)))

/-- `ValueStore.set_value`: a `None` value raises a `RuntimeError` without
mutation; otherwise the store is updated and the receivers notified. -/
def ValueStore.setValue (s : ValueStore α) (key : String) (v : Option α) :
    Except PyErr (ValueStore α × List (Nat × String × α)) :=
  match v with
  | none => Except.error (PyErr.runtimeError "Value store does not accept setting None values")
  | some v => Except.ok (s.setValueSome key v)

/-- `ValueStore.get_value`. -/
def ValueStore.getValue (s : ValueStore α) (key : String) : Option α :=
  match lookupKey key s.store with
  | none => none
  | some e => e.value

/-- The receiver list registered on a topic (empty when the topic is absent). -/
def ValueStore.receiversOf (s : ValueStore α) (key : String) : List Nat :=
  match lookupKey key s.store with
  | none => []
  | some e => e.receivers

/-- Concrete store for the C3 witness: one topic with two receivers, one
all-topic receiver. -/
def wstoreC3 : ValueStore Nat :=
  { store := [("t", { value := some 7, receivers := [2, 3] })],
    allTopicReceivers := [1] }

/-- Lifecycle states of a registered component (`ComponentManager.CompState`). -/
inductive CompState
| registered
| configured
| running
  deriving DecidableEq, Repr

/-- `ComponentManager.CompMapEntry`. Component objects are named by numeric
identities. -/
structure CompMapEntry where
  component : Nat
  compId : Nat
  instanceName : String
  state : CompState
  deriving DecidableEq, Repr

/-- Embedding of `component_framework.ComponentManager`: the registry keyed
by generated component id, plus the id counter. -/
structure ComponentManager where
  components : List (Nat × CompMapEntry)
  lastCompId : Nat
  deriving DecidableEq, Repr

/-- `ComponentManager.register_component`: refuse a component object that is
already registered, or an instance name already in use (logging and returning
`-1` without mutation); otherwise assign the next id and append the entry in
state REGISTERED. -/
def ComponentManager.registerComponent (m : ComponentManager) (component : Nat)
    (instanceName : String) : Int × ComponentManager :=
  if component ∈ m.components.map (fun e => e.2.component) then (-1, m)
  else if instanceName ∈ m.components.map (fun e => e.2.instanceName) then (-1, m)
  else
    let compId := m.lastCompId + 1
    (Int.ofNat compId,
     { components := m.components ++
         [(compId, { component := component, compId := compId,
                     instanceName := instanceName, state := CompState.registered })],
       lastCompId := compId })

/-- Concrete manager for the C8 witness. -/
def wmgrC8 : ComponentManager :=
  { components := [(1, { component := 5, compId := 1, instanceName := "a",
                         state := CompState.registered })],
    lastCompId := 1 }

/-- Assumed state of the other side of a `RemotePair`
(`remote_service.RemoteState`). -/
inductive RemoteState
| down
| unsure
| up
  deriving DecidableEq, Repr

/-- Embedding of `remote_service.RemoteStatusTracker`. Times are in
milliseconds, `datetime(1970, 1, 1)` is `0`; the freshness nonce is the
unbounded Python integer counter. -/
structure RemoteStatusTracker where
  pingIntervalMin : Nat
  pingIntervalMax : Nat
  pingInterval : Nat
  pongTimeout : Nat
  remoteState : RemoteState
  pingFreshness : Nat
  lastPingTime : Nat
  lastPongTime : Nat
  deriving DecidableEq, Repr

/-- `RemoteStatusTracker.__init__` with the given interval parameters and the
(random) initial freshness nonce. -/
def RemoteStatusTracker.init (imin imax ptimeout fresh0 : Nat) : RemoteStatusTracker :=
  { pingIntervalMin := imin, pingIntervalMax := imax, pingInterval := imin,
    pongTimeout := ptimeout, remoteState := RemoteState.unsure,
    pingFreshness := fresh0, lastPingTime := 0, lastPongTime := 0 }

/-- `RemoteStatusTracker._set_remote_state`: entering UNSURE resets the ping
interval and last-ping time; entering UP slows pinging to the maximum
interval. -/
def RemoteStatusTracker.setRemoteState (t : RemoteStatusTracker) (s : RemoteState) :
    RemoteStatusTracker :=
  let t1 := if s = RemoteState.unsure then
      { t with pingInterval := t.pingIntervalMin, lastPingTime := 0 } else t
  let t2 := if s = RemoteState.up then
      { t1 with pingInterval := t1.pingIntervalMax } else t1
  { t2 with remoteState := s }

/-- `RemoteStatusTracker._send_ping`: stamp the ping time, increment the
freshness nonce and hand the new nonce to the ping sender. -/
def RemoteStatusTracker.sendPing (t : RemoteStatusTracker) (now : Nat) : RemoteStatusTracker :=
  { t with lastPingTime := now, pingFreshness := t.pingFreshness + 1 }

/-- `RemoteStatusTracker.run_cyclic` at time `now`; also returns the
freshness nonces of the pings sent during the call. -/
def RemoteStatusTracker.runCyclic (t : RemoteStatusTracker) (now : Nat) :
    RemoteStatusTracker × List Nat :=
  let r1 :=
    if t.remoteState = RemoteState.unsure ∧ t.lastPingTime + t.pingInterval < now then
      let ta := t.sendPing now
      let tb := { ta with pingInterval := 2 * ta.pingInterval }
      let tc := if tb.pingIntervalMax < tb.pingInterval then
          tb.setRemoteState RemoteState.down else tb
      (tc, [ta.pingFreshness])
    else (t, ([] : List Nat))
  let t1 := r1.1
  if t1.remoteState = RemoteState.up ∧ t1.lastPingTime + t1.pingInterval < now then
    let ta := t1.sendPing now
    let tb := if ta.lastPongTime + ta.pongTimeout < now then
        ta.setRemoteState RemoteState.down else ta
    (tb, r1.2 ++ [ta.pingFreshness])
  else (t1, r1.2)

/-- `RemoteStatusTracker.pong_received`: ignore a pong whose freshness does
not match the most recent ping's nonce; otherwise promote UNSURE to UP and
stamp the pong time while UP. -/
def RemoteStatusTracker.pongReceived (t : RemoteStatusTracker) (freshness now : Nat) :
    RemoteStatusTracker :=
  if freshness ≠ t.pingFreshness then t
  else
    let t1 := if t.remoteState = RemoteState.unsure then
        t.setRemoteState RemoteState.up else t
    if t1.remoteState = RemoteState.up then { t1 with lastPongTime := now } else t1

/-- `RemoteStatusTracker.message_received_in_down` /
`RemoteStatusTracker.sending_timeout`: force UNSURE. -/
def RemoteStatusTracker.forceUnsure (t : RemoteStatusTracker) : RemoteStatusTracker :=
  t.setRemoteState RemoteState.unsure

/-- State reached by the tracker of the C2 counterexample after: init
(min 100, max 3000, pong timeout 5000), a ping at t=101, the matching pong at
t=102 (promoting to UP), and a further unanswered ping at t=3200. -/
def wtrackerC2 : RemoteStatusTracker :=
  let t0 := RemoteStatusTracker.init 100 3000 5000 0
  let t1 := (t0.runCyclic 101).1
  let t2 := t1.pongReceived t1.pingFreshness 102
  (t2.runCyclic 3200).1

/-- Freshly initialised tracker used by witnesses. -/
def wtrackerInit : RemoteStatusTracker := RemoteStatusTracker.init 100 3000 5000 0

/-- Reply of a transceiver `send_value` round trip. -/
inductive SendReply
| injected
| received
| rejected
| timeout
  deriving DecidableEq, Repr

/-- `remote_service.SendState`. -/
structure SendState where
  forcedSend : Bool
  sendPending : Bool
  deriving DecidableEq, Repr

/-- `remote_service.SendRule` (stored keyed by remote topic): the local
topic, the configured queue length, the mutable send state, and the owned
queue (absent until `configure` runs). -/
structure SendRuleM (α : Type) where
  topic : String
  queueLength : Nat
  state : SendState
  queue : Option (ValueQueue α)
  deriving DecidableEq, Repr

/-- `RemoteService._handle_send_single`: skip when a send is pending or the
rule has no queue; otherwise send the peeked front of a non-empty queue
(popping it and clearing `forced_send` on INJECTED/RECEIVED/REJECTED, and
additionally setting `send_pending` on RECEIVED); on an empty queue with
`forced_send` set, send the latest store value, aborting the forced send when
the queue meanwhile became non-empty or the store holds nothing. `reply`
gives the transceiver's answer per topic and `storeVal` the store lookup;
the second component lists the sends performed as `(topic, value)`. -/
def handleSendSingle (rule : SendRuleM α) (reply : String → SendReply)
    (storeVal : String → Option α) : SendRuleM α × List (String × α) :=
  if rule.state.sendPending then (rule, [])
  else
    match rule.queue with
    | none => (rule, [])
    | some q =>
      if ¬ q.isEmptyQ then
        match q.queue with
        | [] => (rule, [])
        | (v, _) :: _ =>
          let r := reply rule.topic
          if r = SendReply.injected ∨ r = SendReply.received ∨ r = SendReply.rejected then
            ({ rule with
                queue := some (q.popWithTopic).2,
                state := { forcedSend := false,
                           sendPending := if r = SendReply.received then true
                                          else rule.state.sendPending } },
             [(rule.topic, v)])
          else (rule, [(rule.topic, v)])
      else if rule.state.forcedSend then
        let v? := storeVal rule.topic
        if ¬ q.isEmptyQ then
          ({ rule with state := { rule.state with forcedSend := false } }, [])
        else
          match v? with
          | none => ({ rule with state := { rule.state with forcedSend := false } }, [])
          | some v =>
            let r := reply rule.topic
            if r = SendReply.received then
              ({ rule with state := { forcedSend := false, sendPending := true } },
               [(rule.topic, v)])
            else if r = SendReply.injected ∨ r = SendReply.rejected then
              ({ rule with state := { rule.state with forcedSend := false } },
               [(rule.topic, v)])
            else (rule, [(rule.topic, v)])
      else (rule, [])

/-- The send-rule half of `RemoteService`: the send rules keyed by remote
topic, and the `_initialized` flag. -/
structure SendSide (α : Type) where
  sendRules : List (String × SendRuleM α)
  inited : Bool

/-- One iteration of the `_handle_send` loop body: nothing happens before
initialization or while disconnected (the per-rule connectivity check acts
as an all-or-nothing break under a fixed link state); otherwise every rule
goes once through `_handle_send_single`. Emissions are tagged with the
rule's remote-topic key. -/
def handleSendPass (s : SendSide α) (connected : Bool) (reply : String → SendReply)
    (storeVal : String → Option α) : SendSide α × List (String × List (String × α)) :=
  if ¬ s.inited ∨ ¬ connected then (s, [])
  else
    let step := s.sendRules.map (fun kr => (kr.1, handleSendSingle kr.2 reply storeVal))
    ({ s with sendRules := step.map (fun p => (p.1, p.2.1)) },
     step.map (fun p => (p.1, p.2.2)))

/-- `RemoteService.blocked_value_injected_received` /
`blocked_value_rejected_received`: look up the send rule by topic and clear
its `send_pending` flag. -/
def clearSendPendingAt (s : SendSide α) (topic : String) : SendSide α :=
  { s with sendRules := s.sendRules.map (fun kr =>
      if kr.1 = topic then
        (kr.1, { kr.2 with state := { kr.2.state with sendPending := false } })
      else kr) }

/-- A local `set_value` delivering into the queues of the send rules whose
local topic matches (each rule's queue is registered as a store receiver on
the rule's local topic). -/
def arrivalStep (s : SendSide α) (topic : String) (v : α) : SendSide α :=
  { s with sendRules := s.sendRules.map (fun kr =>
      if kr.2.topic = topic then
        (kr.1, { kr.2 with queue := kr.2.queue.map (fun q => (q.receive topic v 0).2) })
      else kr) }

/-- The events acting on the send subsystem: a send-cycle pass (under a given
link state, transceiver reply behaviour and store contents), a
`valueInjected`/`valueRejected` control message for a remote topic, or the
arrival of a new local value. -/
inductive BridgeEvent (α : Type)
| sendPass (connected : Bool) (reply : String → SendReply) (storeVal : String → Option α)
| blockedInjected (topic : String)
| blockedRejected (topic : String)
| arrival (topic : String) (value : α)

/-- One event step of the send subsystem. -/
def bridgeStep (s : SendSide α) (e : BridgeEvent α) :
    SendSide α × List (String × List (String × α)) :=
  match e with
  | BridgeEvent.sendPass connected reply storeVal => handleSendPass s connected reply storeVal
  | BridgeEvent.blockedInjected topic => (clearSendPendingAt s topic, [])
  | BridgeEvent.blockedRejected topic => (clearSendPendingAt s topic, [])
  | BridgeEvent.arrival topic v => (arrivalStep s topic v, [])

/-- A run over a trace of events, concatenating the emissions. -/
def bridgeRun (s : SendSide α) : List (BridgeEvent α) →
    SendSide α × List (String × List (String × α))
  | [] => (s, [])
  | e :: rest =>
    let r := bridgeStep s e
    let r2 := bridgeRun r.1 rest
    (r2.1, r.2 ++ r2.2)

/-- `remote_service.ReceiveRule`: the local topic and the reserved
`pending_value` slot (never populated in the current design). -/
structure RecvRule (α : Type) where
  topic : String
  pendingValue : Option α
  deriving DecidableEq, Repr

/-- The receive half of `RemoteService`: the `_initialized` flag, the receive
rules keyed by remote topic, and the component's value store. -/
structure RecvSide (α : Type) where
  inited : Bool
  receiveRules : List (String × RecvRule α)
  store : ValueStore α
  deriving DecidableEq, Repr

/-- `RemoteService.value_received`: reject when not initialized, when no
receive rule exists for the topic, or when the rule's `pending_value` slot is
occupied; otherwise write the value to the store under the given topic and
report `"INJECTED"`. -/
def valueReceived (s : RecvSide α) (topic : String) (v : α) : String × RecvSide α :=
  if ¬ s.inited then ("REJECTED", s)
  else
    match lookupKey topic s.receiveRules with
    | none => ("REJECTED", s)
    | some r =>
      if r.pendingValue.isSome then ("REJECTED", s)
      else ("INJECTED", { s with store := (s.store.setValueSome topic v).1 })

/-- Concrete send side for the C1 witness: one rule, pending. -/
def wsendC1 : SendSide Nat :=
  { sendRules := [("rt", { topic := "lt", queueLength := 1,
                           state := { forcedSend := false, sendPending := true },
                           queue := some { maxlen := 1, queue := [(4, "lt")], events := [],
                                           expiredBit := false, lastReceiveTopic := "lt",
                                           lastReceiveTime := 0 } })],
    inited := true }

/-- Concrete trace for the C1 witness: a send pass, an arrival, and control
messages for a different topic. -/
def wtraceC1 : List (BridgeEvent Nat) :=
  [BridgeEvent.sendPass true (fun _ => SendReply.injected) (fun _ => none),
   BridgeEvent.arrival "lt" 9,
   BridgeEvent.blockedInjected "other",
   BridgeEvent.blockedRejected "other",
   BridgeEvent.sendPass true (fun _ => SendReply.injected) (fun _ => none)]

/-- Concrete receive side for the C9 witness. -/
def wrecvC9 : RecvSide Nat :=
  { inited := true,
    receiveRules := [("rt", { topic := "lt", pendingValue := none })],
    store := { store := [], allTopicReceivers := [] } }

/-- `RECORDER_STATUS_TOPIC`. -/
def recorderStatusTopic : String := "/mcf/recorder/status"

/-- `MAX_DROP_COUNT` (2^32). -/
def maxDropCount : Nat := 2 ^ 32

/-- `value_recorder.Queue`: pending writes in arrival order (front oldest),
each with reception time and topic. (The source interns topics through a
`topic_id` map; the embedding keeps the topic with the entry.) -/
structure RecQueue (α : Type) where
  deque : List (Nat × String × α)
  deriving DecidableEq, Repr

/-- `Queue.pop`: remove and return the oldest entry together with the queue
size after removal; on an empty queue return the default `QueueEntry` (whose
value slot is `None`) and size 0, leaving the queue unchanged. -/
def RecQueue.popEntry (q : RecQueue α) : (Nat × String × Option α) × Nat × RecQueue α :=
  match q.deque with
  | [] => ((0, "", none), 0, q)
  | x :: rest => ((x.1, x.2.1, some x.2.2), rest.length, { deque := rest })

/-- The drop bookkeeping of `value_recorder.StatusMonitor`. -/
structure MonState where
  dropFlag : Bool
  dropCount : Nat
  deriving DecidableEq, Repr

/-- `StatusMonitor.report_dropped`: set the drop flag and count the drop,
saturating at `MAX_DROP_COUNT`. -/
def reportDropped (m : MonState) : MonState :=
  { dropFlag := true,
    dropCount := if m.dropCount < maxDropCount then m.dropCount + 1 else m.dropCount }

/-- Outcome of one write-loop iteration. -/
inductive WriteOutcome (α : Type)
| serializedItem (topic : String) (value : α)
| droppedItem (topic : String) (value : α)
| idle
  deriving DecidableEq, Repr

/-- One iteration of the inner `write_thread` drain loop: pop an entry; a
`None` value (empty queue) ends the drain (`idle`); otherwise serialize the
entry when the remaining queue depth is below the configured limit or its
topic is the recorder status topic, and drop it (reporting the drop to the
status monitor) otherwise. The loop never blocks. -/
def writeStep (q : RecQueue α) (limit : Nat) (mon : MonState) :
    RecQueue α × MonState × WriteOutcome α :=
  let p := q.popEntry
  match p.1.2.2 with
  | none => (p.2.2, mon, WriteOutcome.idle)
  | some v =>
    if p.2.1 < limit ∨ p.1.2.1 = recorderStatusTopic then
      (p.2.2, mon, WriteOutcome.serializedItem p.1.2.1 v)
    else
      (p.2.2, reportDropped mon, WriteOutcome.droppedItem p.1.2.1 v)

/-- Concrete recorder queue for the C7 witness: two pending entries. -/
def wrecQC7 : RecQueue Nat :=
  { deque := [(10, "cam", 1), (11, "cam", 2)] }

/-- Concrete recorder queue for the C7 witness: a status entry first. -/
def wrecQC7s : RecQueue Nat :=
  { deque := [(10, "/mcf/recorder/status", 3), (11, "cam", 2)] }

/-- A msgpack-encodable object as the recorder and reader exchange them:
integers, strings, booleans and (possibly nested) arrays. The payload
`serialized[0]` of a value, with nested values recursively encoded by
`encode_serializable`, is such an object. -/
inductive MsgObj
| mint (i : Int)
| mstr (s : String)
| mbool (b : Bool)
| marr (l : List MsgObj)

/-- One element of a record file: a packed msgpack object (self-delimiting,
one `msgpack.packb` output) or one raw ExtMem byte (delimited only by the
counts declared in the ExtMem header, never by content). -/
inductive FileEntry
| packed (o : MsgObj)
| byte (b : Nat)

/-- Modelled from the spec: the ExtMem compression codec is the external
zlib deflate ("a general byte-stream deflate" whose declared uncompressed
size is authoritative). The embedding uses an executable lossless stand-in
(a length prefix) with the two properties the framing relies on: exact
inversion by `modelDecompress`, and a compressed image that is never empty
(zlib output always has a non-empty header), so a declared compressed size
of 0 still unambiguously means "not compressed". -/
def modelCompress (l : List Nat) : List Nat := l.length :: l

/-- Modelled from the spec: the inverse of `modelCompress` (zlib inflate
with the declared uncompressed size as target buffer size). -/
def modelDecompress (l : List Nat) : List Nat := l.drop 1

/-- Input of `ValueRecorder._serialize` for one record: the packet header
data (capture time, topic, type name `serialized[1]`, value id), the payload
`serialized[0]`, the optional ExtMem blob `serialized[2]`, and the
recorder's per-topic ExtMem flags for the record's topic. -/
structure RecordInput where
  rtime : Nat
  topic : String
  tid : String
  vid : Nat
  payload : MsgObj
  extmem : Option (List Nat)
  extmemEnabled : Bool
  compressEnabled : Bool

/-- `pack_extmem`: ExtMem is written when the value carries a blob and the
topic has ExtMem serialization enabled. -/
def RecordInput.packExtmem (r : RecordInput) : Bool :=
  r.extmem.isSome && r.extmemEnabled

/-- The ExtMem blob (empty when the value carries none). -/
def RecordInput.blob (r : RecordInput) : List Nat := r.extmem.getD []

/-- `extmem_size`: the uncompressed length, 0 when ExtMem is not packed. -/
def RecordInput.usize (r : RecordInput) : Nat :=
  if r.packExtmem then r.blob.length else 0

/-- `extmem_size_compressed`: the compressed length, 0 when not compressed. -/
def RecordInput.csize (r : RecordInput) : Nat :=
  if r.packExtmem && r.compressEnabled then (modelCompress r.blob).length else 0

/-- The ExtMem bytes written after the headers (compressed when so
configured; nothing when ExtMem is not packed). -/
def RecordInput.extmemData (r : RecordInput) : List Nat :=
  if r.packExtmem then
    (if r.compressEnabled then modelCompress r.blob else r.blob)
  else []

/-- The three packed msgpack objects opening one record: the packet header
`[time, topic, tid, vid]`, the payload, and the ExtMem header
`[extmem_size, extmem_present, extmem_size_compressed]`. -/
def headerEntries (r : RecordInput) : List FileEntry :=
  [FileEntry.packed (MsgObj.marr [MsgObj.mint (Int.ofNat r.rtime), MsgObj.mstr r.topic,
                                  MsgObj.mstr r.tid, MsgObj.mint (Int.ofNat r.vid)]),
   FileEntry.packed r.payload,
   FileEntry.packed (MsgObj.marr [MsgObj.mint (Int.ofNat r.usize),
                                  MsgObj.mbool r.packExtmem,
                                  MsgObj.mint (Int.ofNat r.csize)])]

/-- `ValueRecorder._serialize`: the four back-to-back self-delimited fields
of one record — packed header `[time, topic, tid, vid]`, packed payload,
packed ExtMem header `[extmem_size, extmem_present, extmem_size_compressed]`
and the raw (optionally compressed) ExtMem bytes, present only when the
header's present flag is set. -/
def serializeRecord (r : RecordInput) : List FileEntry :=
  headerEntries r ++ r.extmemData.map FileEntry.byte

/-- Writing a sequence of records appends their serializations. -/
def writeAll (rs : List RecordInput) : List FileEntry :=
  (rs.map serializeRecord).flatten

/-- `RecordReader.Record` as filled in by `records_generator` (without the
value-size diagnostics). -/
structure RecordOut where
  timestamp : Int
  rtopic : String
  typeid : String
  valueid : Int
  value : MsgObj
  extmemSize : Nat
  extmemIndex : Nat
  extmemPresent : Bool
  extmemSizeCompressed : Nat

/-- Parse one record at position `pos`: unpack three msgpack objects (packet
header, payload, ExtMem header), remember where the ExtMem bytes start, and
skip the declared number of ExtMem bytes (the compressed size when nonzero,
the uncompressed size otherwise). `None` at end of data or on an unexpected
shape. -/
def parseOne (file : List FileEntry) (pos : Nat) : Option (RecordOut × Nat) :=
  match file.drop pos with
  | FileEntry.packed (MsgObj.marr [MsgObj.mint ptime, MsgObj.mstr ptopic,
                                   MsgObj.mstr ptid, MsgObj.mint pvid]) ::
    FileEntry.packed payload ::
    FileEntry.packed (MsgObj.marr [MsgObj.mint esize, MsgObj.mbool epresent,
                                   MsgObj.mint esizec]) :: _ =>
    let skip := if esizec = 0 then esize.toNat else esizec.toNat
    some ({ timestamp := ptime, rtopic := ptopic, typeid := ptid, valueid := pvid,
            value := payload, extmemSize := esize.toNat, extmemIndex := pos + 3,
            extmemPresent := epresent, extmemSizeCompressed := esizec.toNat },
          pos + 3 + (if epresent then skip else 0))
  | _ => none

/-- `RecordReader.records_generator`: repeatedly parse records from the
start; the fuel bounds the record count (each record spans at least three
entries, so the file length is always enough fuel). -/
def parseRecords (file : List FileEntry) : Nat → Nat → List RecordOut
  | _, 0 => []
  | pos, fuel + 1 =>
    match parseOne file pos with
    | none => []
    | some (r, pos2) => r :: parseRecords file pos2 fuel

/-- All records `records_generator` yields for a file. -/
def readerRecords (file : List FileEntry) : List RecordOut :=
  parseRecords file 0 file.length

/-- Reading a run of raw bytes out of the entry stream (`file.read`); `None`
if a packed object is hit (never happens at offsets the writer filled with
ExtMem bytes). -/
def entryBytes : List FileEntry → Option (List Nat)
  | [] => some []
  | FileEntry.byte b :: rest => (entryBytes rest).map (fun l => b :: l)
  | FileEntry.packed _ :: _ => none

/-- `RecordReader.get_extmem`: `None` when ExtMem is absent; otherwise seek
to the record's ExtMem index and read the declared number of bytes,
inflating them when a nonzero compressed size was declared. -/
def getExtmem (file : List FileEntry) (r : RecordOut) : Option (List Nat) :=
  if r.extmemPresent then
    if r.extmemSizeCompressed ≠ 0 then
      match entryBytes ((file.drop r.extmemIndex).take r.extmemSizeCompressed) with
      | some bs => some (modelDecompress bs)
      | none => none
    else
      entryBytes ((file.drop r.extmemIndex).take r.extmemSize)
  else none

/-- The record the reader yields for input `r` parsed at position `pos`. -/
def recordOf (r : RecordInput) (pos : Nat) : RecordOut :=
  { timestamp := Int.ofNat r.rtime, rtopic := r.topic, typeid := r.tid,
    valueid := Int.ofNat r.vid, value := r.payload, extmemSize := r.usize,
    extmemIndex := pos + 3, extmemPresent := r.packExtmem,
    extmemSizeCompressed := r.csize }

/-- Expected reader output for a record sequence written starting at `pos`. -/
def expectedRecords : List RecordInput → Nat → List RecordOut
  | [], _ => []
  | r :: rs, pos => recordOf r pos :: expectedRecords rs (pos + (serializeRecord r).length)

/-- The agreement the round-trip claim requires between a written record and
the record read back: identical topic, type name, value id, payload and
timestamp, and `get_extmem` returning exactly the original ExtMem bytes
(when they were packed; `None` otherwise). -/
def RoundTripMatches (file : List FileEntry) (inp : RecordInput) (rec : RecordOut) : Prop :=
  rec.rtopic = inp.topic ∧ rec.typeid = inp.tid ∧ rec.valueid = Int.ofNat inp.vid
  ∧ rec.value = inp.payload ∧ rec.timestamp = Int.ofNat inp.rtime
  ∧ getExtmem file rec = (if inp.packExtmem then some inp.blob else none)

/-! ### Theorems -/

theorem ValueQueue.receive_queue_of_lt (q : ValueQueue α) (topic : String) (value : α)
    (now : Nat) (h : q.queue.length < q.maxlen) :
    ((q.receive topic value now).2).queue = q.queue ++ [(value, topic)] := by
  simp only [ValueQueue.receive]
  have : ¬ (0 < q.maxlen ∧ q.maxlen ≤ q.queue.length) := by omega
  simp [this]

theorem ValueQueue.receive_queue_of_full (q : ValueQueue α) (topic : String) (value : α)
    (now : Nat) (h0 : 0 < q.maxlen) (h : q.maxlen ≤ q.queue.length) :
    ((q.receive topic value now).2).queue = q.queue.drop 1 ++ [(value, topic)] := by
  simp [ValueQueue.receive, h0, h]

theorem ValueQueue.receive_maxlen (q : ValueQueue α) (topic : String) (value : α) (now : Nat) :
    ((q.receive topic value now).2).maxlen = q.maxlen := by
  simp [ValueQueue.receive]

/-- The bounded-queue invariant: one reception keeps the queue a suffix of
the full arrival sequence, of length at most `maxlen`. -/
theorem ValueQueue.receiveAll_queue (items : List (String × α)) :
    ∀ (q : ValueQueue α), 0 < q.maxlen → q.queue.length ≤ q.maxlen →
    (q.receiveAll items).queue =
      (q.queue ++ items.map (fun it => (it.2, it.1))).drop
        (q.queue.length + items.length - q.maxlen) := by
  induction items with
  | nil =>
    intro q hpos hle
    simp [ValueQueue.receiveAll, Nat.sub_eq_zero_of_le, hle]
  | cons it rest ih =>
    intro q hpos hle
    have hstep : ValueQueue.receiveAll q (it :: rest) =
        ValueQueue.receiveAll ((q.receive it.1 it.2 0).2) rest := by
      simp [ValueQueue.receiveAll]
    rw [hstep]
    rcases Nat.lt_or_ge q.queue.length q.maxlen with hlt | hge
    · have hq : ((q.receive it.1 it.2 0).2).queue = q.queue ++ [(it.2, it.1)] :=
        ValueQueue.receive_queue_of_lt q it.1 it.2 0 hlt
      have hm : ((q.receive it.1 it.2 0).2).maxlen = q.maxlen :=
        ValueQueue.receive_maxlen q it.1 it.2 0
      have hlen : ((q.receive it.1 it.2 0).2).queue.length ≤ q.maxlen := by
        rw [hq]; simp; omega
      have := ih ((q.receive it.1 it.2 0).2) (by rw [hm]; exact hpos) (by rw [hm]; exact hlen)
      rw [this, hm, hq]
      simp [List.append_assoc]
      congr 1
      omega
    · have heq : q.maxlen = q.queue.length := Nat.le_antisymm hge hle
      have hq : ((q.receive it.1 it.2 0).2).queue = q.queue.drop 1 ++ [(it.2, it.1)] :=
        ValueQueue.receive_queue_of_full q it.1 it.2 0 hpos hge
      have hm : ((q.receive it.1 it.2 0).2).maxlen = q.maxlen :=
        ValueQueue.receive_maxlen q it.1 it.2 0
      have h1 : 1 ≤ q.queue.length := by omega
      have hlen : ((q.receive it.1 it.2 0).2).queue.length ≤ q.maxlen := by
        rw [hq]
        simp
        omega
      have ihq := ih ((q.receive it.1 it.2 0).2) (by rw [hm]; exact hpos) (by rw [hm]; exact hlen)
      rw [ihq, hm, hq]
      have hidx1 : (q.queue.drop 1 ++ [(it.2, it.1)]).length + rest.length - q.maxlen =
          rest.length := by
        simp
        omega
      have hidx2 : q.queue.length + (it :: rest).length - q.maxlen = rest.length + 1 := by
        simp
        omega
      have hlist : (q.queue.drop 1 ++ [(it.2, it.1)]) ++
          rest.map (fun it => (it.2, it.1)) =
          (q.queue ++ (it.2, it.1) :: rest.map (fun it => (it.2, it.1))).drop 1 := by
        rw [List.drop_append_of_le_length h1, List.append_assoc]
        rfl
      rw [hidx1, hidx2, hlist, List.drop_drop, Nat.add_comm 1 rest.length]
      simp [List.map_cons]

/-- C4: for a bounded `ValueQueue` (`maxlen > 0`) and a sequence of more than
`maxlen` receives starting from an empty queue, the final queue holds exactly
the last `maxlen` received `(value, topic)` pairs in arrival order; each
receive at capacity evicts the oldest entry before appending; and each
receive returns the queue's expired flag. -/
theorem C4_bounded_queue_retains_last_maxlen (α : Type) (q0 : ValueQueue α)
    (items : List (String × α))
    (h0 : q0.queue = []) (hpos : 0 < q0.maxlen) (_hN : q0.maxlen < items.length) :
    (q0.receiveAll items).queue =
      (items.map (fun it => (it.2, it.1))).drop (items.length - q0.maxlen)
    ∧ (∀ (q : ValueQueue α) (topic : String) (value : α) (now : Nat),
        0 < q.maxlen → q.maxlen ≤ q.queue.length →
        ((q.receive topic value now).2).queue = q.queue.drop 1 ++ [(value, topic)])
    ∧ (∀ (q : ValueQueue α) (topic : String) (value : α) (now : Nat),
        (q.receive topic value now).1 = q.expiredBit) := by
  refine ⟨?_, ?_, ?_⟩
  · have h := ValueQueue.receiveAll_queue items q0 hpos (by rw [h0]; simp)
    rw [h, h0]
    simp
  · intro q topic value now hq hfull
    exact ValueQueue.receive_queue_of_full q topic value now hq hfull
  · intro q topic value now
    simp [ValueQueue.receive]

theorem C4_bounded_queue_retains_last_maxlen_witness :
    wqEmpty.queue = [] ∧ 0 < wqEmpty.maxlen ∧ wqEmpty.maxlen < witemsC4.length ∧
    ((wqEmpty.receiveAll witemsC4).queue =
      (witemsC4.map (fun it => (it.2, it.1))).drop (witemsC4.length - wqEmpty.maxlen)
    ∧ (∀ (q : ValueQueue Nat) (topic : String) (value : Nat) (now : Nat),
        0 < q.maxlen → q.maxlen ≤ q.queue.length →
        ((q.receive topic value now).2).queue = q.queue.drop 1 ++ [(value, topic)])
    ∧ (∀ (q : ValueQueue Nat) (topic : String) (value : Nat) (now : Nat),
        (q.receive topic value now).1 = q.expiredBit)) :=
  ⟨rfl, by decide, by decide,
   C4_bounded_queue_retains_last_maxlen Nat wqEmpty witemsC4 rfl (by decide) (by decide)⟩

/-- C10: on an empty `ValueQueue`, `peek_with_topic()` and `pop_with_topic()`
return `None` and leave the queue unchanged, while `peek()` and `pop()` raise
a `TypeError` by subscripting that `None`. -/
theorem C10_empty_queue_peek_pop (α : Type) (q : ValueQueue α) (h : q.queue = []) :
    q.peekWithTopic = none
    ∧ q.popWithTopic = (none, q)
    ∧ q.peekFront = Except.error PyErr.typeError
    ∧ q.popFront = (Except.error PyErr.typeError, q) := by
  refine ⟨?_, ?_, ?_, ?_⟩ <;>
    simp [ValueQueue.peekWithTopic, ValueQueue.popWithTopic, ValueQueue.peekFront,
          ValueQueue.popFront, subscriptFst, h]

theorem lookupKey_append_of_none (key : String) (l₁ l₂ : List (String × β))
    (h : lookupKey key l₁ = none) :
    lookupKey key (l₁ ++ l₂) = lookupKey key l₂ := by
  induction l₁ with
  | nil => simp
  | cons p rest ih =>
    by_cases hp : p.1 = key
    · simp [lookupKey, hp] at h
    · simp [lookupKey, hp] at h ⊢
      exact ih h

theorem lookupKey_append_of_some (key : String) (l₁ l₂ : List (String × β)) (e : β)
    (h : lookupKey key l₁ = some e) :
    lookupKey key (l₁ ++ l₂) = some e := by
  induction l₁ with
  | nil => simp [lookupKey] at h
  | cons p rest ih =>
    by_cases hp : p.1 = key
    · simp [lookupKey, hp] at h ⊢
      exact h
    · simp [lookupKey, hp] at h ⊢
      exact ih h

theorem lookupKey_setEntry_self (key : String) (e : β) (l : List (String × β)) :
    lookupKey key (setEntry key e l) =
      if (lookupKey key l).isSome then some e else none := by
  induction l with
  | nil => simp [lookupKey, setEntry]
  | cons p rest ih =>
    by_cases h : p.1 = key <;> simp [lookupKey, setEntry, h, ih]

theorem lookupKey_setEntry_ne (k key : String) (hne : k ≠ key) (e : β)
    (l : List (String × β)) :
    lookupKey k (setEntry key e l) = lookupKey k l := by
  induction l with
  | nil => simp [setEntry]
  | cons p rest ih =>
    by_cases h : p.1 = key
    · have hkk : ¬ (key = k) := fun hh => hne hh.symm
      have hpk : ¬ (p.1 = k) := by rw [h]; exact hkk
      simp [setEntry, h, lookupKey, hkk, hpk]
    · by_cases h2 : p.1 = k
      · simp [setEntry, h, lookupKey, h2, hne]
      · simp [setEntry, h, lookupKey, h2, hne, ih]

theorem lookupKey_createKeyIfAbsent_self (s : ValueStore α) (key : String) :
    lookupKey key (s.createKeyIfAbsent key).store =
      match lookupKey key s.store with
      | some e => some e
      | none => some { value := none, receivers := [] } := by
  unfold ValueStore.createKeyIfAbsent
  cases h : lookupKey key s.store with
  | some e => simp [h]
  | none =>
    simp [h]
    rw [lookupKey_append_of_none key s.store _ h]
    simp [lookupKey]

theorem lookupKey_createKeyIfAbsent_ne (s : ValueStore α) (key k : String) (hne : k ≠ key) :
    lookupKey k (s.createKeyIfAbsent key).store = lookupKey k s.store := by
  unfold ValueStore.createKeyIfAbsent
  cases h : lookupKey key s.store with
  | some e => simp [h]
  | none =>
    simp [h]
    cases hk : lookupKey k s.store with
    | some e => exact lookupKey_append_of_some k s.store _ e hk
    | none =>
      rw [lookupKey_append_of_none k s.store _ hk]
      simp [lookupKey, hne]
      exact fun hh => hne hh.symm

theorem createKeyIfAbsent_allTopic (s : ValueStore α) (key : String) :
    (s.createKeyIfAbsent key).allTopicReceivers = s.allTopicReceivers := by
  unfold ValueStore.createKeyIfAbsent
  cases h : lookupKey key s.store with
  | some e => simp [h]
  | none => simp [h]

theorem receiversOf_createKeyIfAbsent_self (s : ValueStore α) (key : String) :
    (s.createKeyIfAbsent key).receiversOf key = s.receiversOf key := by
  unfold ValueStore.receiversOf
  rw [lookupKey_createKeyIfAbsent_self]
  cases h : lookupKey key s.store with
  | some e => simp
  | none => simp

theorem lookupKey_createKeyIfAbsent_isSome (s : ValueStore α) (key : String) :
    (lookupKey key (s.createKeyIfAbsent key).store).isSome := by
  rw [lookupKey_createKeyIfAbsent_self]
  cases h : lookupKey key s.store <;> simp

theorem setValueSome_parts (s : ValueStore α) (key : String) (v : α) :
    (s.setValueSome key v).1.store =
      setEntry key { value := some v, receivers := s.receiversOf key }
        (s.createKeyIfAbsent key).store
    ∧ (s.setValueSome key v).1.allTopicReceivers = s.allTopicReceivers
    ∧ (s.setValueSome key v).2 =
        (s.allTopicReceivers ++ s.receiversOf key).map (fun rid => (rid, key, v)) := by
  unfold ValueStore.setValueSome
  have hl := lookupKey_createKeyIfAbsent_self s key
  cases h : lookupKey key s.store with
  | some e =>
    rw [h] at hl
    simp only at hl
    simp [hl, ValueStore.receiversOf, h, createKeyIfAbsent_allTopic]
  | none =>
    rw [h] at hl
    simp only at hl
    simp [hl, ValueStore.receiversOf, h, createKeyIfAbsent_allTopic]

theorem count_map_pair [DecidableEq α] (l : List Nat) (key : String) (v : α) (rid : Nat) :
    ((l.map (fun r => (r, key, v))).count (rid, key, v)) = l.count rid := by
  induction l with
  | nil => simp
  | cons a rest ih =>
    simp only [List.map_cons, List.count_cons, ih]
    congr 1
    by_cases h : a = rid <;> simp [h]

theorem count_nat_eq_one (l : List Nat) (hd : l.Nodup) (rid : Nat) (h : rid ∈ l) :
    l.count rid = 1 := by
  induction l with
  | nil => simp at h
  | cons a rest ih =>
    rcases List.nodup_cons.mp hd with ⟨hna, hnr⟩
    simp only [List.count_cons]
    rcases List.mem_cons.mp h with h1 | h1
    · subst h1
      rw [List.count_eq_zero_of_not_mem hna]
      simp
    · have hne : ¬ (a == rid) = true := by
        intro hab
        exact hna (by simpa using (beq_iff_eq.mp hab ▸ h1))
      rw [ih hnr h1]
      simp at hne
      simp [hne]

theorem getValue_setValueSome_self (s : ValueStore α) (key : String) (v : α) :
    (s.setValueSome key v).1.getValue key = some v := by
  obtain ⟨hst, _, _⟩ := setValueSome_parts s key v
  unfold ValueStore.getValue
  rw [hst, lookupKey_setEntry_self]
  simp [lookupKey_createKeyIfAbsent_isSome s key]

/-- C3: `set_value(t, v)` rejects `None` with a `RuntimeError` and no
mutation; otherwise it replaces the stored value for `t` (other topics, all
receiver registrations and the all-topic list unchanged) and delivers `v`
exactly once to each all-topic receiver and then exactly once to each
receiver registered on `t`, in registration order, all-topic receivers
first. -/
theorem C3_set_value_delivery (α : Type) [DecidableEq α] (s : ValueStore α) (key : String)
    (v : α) :
    s.setValue key none =
      Except.error (PyErr.runtimeError "Value store does not accept setting None values")
    ∧ s.setValue key (some v) = Except.ok (s.setValueSome key v)
    ∧ (s.setValueSome key v).1.getValue key = some v
    ∧ (∀ k, k ≠ key → (s.setValueSome key v).1.getValue k = s.getValue k)
    ∧ (∀ k, (s.setValueSome key v).1.receiversOf k = s.receiversOf k)
    ∧ (s.setValueSome key v).1.allTopicReceivers = s.allTopicReceivers
    ∧ (s.setValueSome key v).2 =
        (s.allTopicReceivers ++ s.receiversOf key).map (fun rid => (rid, key, v))
    ∧ (s.allTopicReceivers.Nodup → (s.receiversOf key).Nodup →
        ∀ rid ∈ s.allTopicReceivers ++ s.receiversOf key,
          ((s.setValueSome key v).2).count (rid, key, v) =
            (if rid ∈ s.allTopicReceivers then 1 else 0) +
            (if rid ∈ s.receiversOf key then 1 else 0)) := by
  obtain ⟨hst, hat, hdel⟩ := setValueSome_parts s key v
  refine ⟨rfl, rfl, getValue_setValueSome_self s key v, ?_, ?_, hat, hdel, ?_⟩
  · intro k hk
    unfold ValueStore.getValue
    rw [hst, lookupKey_setEntry_ne k key hk, lookupKey_createKeyIfAbsent_ne s key k hk]
  · intro k
    unfold ValueStore.receiversOf
    by_cases hk : k = key
    · subst hk
      rw [hst, lookupKey_setEntry_self]
      simp [lookupKey_createKeyIfAbsent_isSome s k]
      unfold ValueStore.receiversOf
      cases h : lookupKey k s.store <;> simp
    · rw [hst, lookupKey_setEntry_ne k key hk, lookupKey_createKeyIfAbsent_ne s key k hk]
  · intro hA hB rid _hmem
    rw [hdel, count_map_pair, List.count_append]
    by_cases h1 : rid ∈ s.allTopicReceivers
    · by_cases h2 : rid ∈ s.receiversOf key
      · rw [count_nat_eq_one _ hA rid h1, count_nat_eq_one _ hB rid h2]
        simp [h1, h2]
      · rw [count_nat_eq_one _ hA rid h1, List.count_eq_zero_of_not_mem h2]
        simp [h1, h2]
    · by_cases h2 : rid ∈ s.receiversOf key
      · rw [List.count_eq_zero_of_not_mem h1, count_nat_eq_one _ hB rid h2]
        simp [h1, h2]
      · rw [List.count_eq_zero_of_not_mem h1, List.count_eq_zero_of_not_mem h2]
        simp [h1, h2]

theorem C3_set_value_delivery_witness :
    wstoreC3.allTopicReceivers.Nodup
    ∧ (wstoreC3.receiversOf "t").Nodup
    ∧ (2 : Nat) ∈ wstoreC3.allTopicReceivers ++ wstoreC3.receiversOf "t"
    ∧ ((wstoreC3.setValueSome "t" 9).2).count (2, "t", 9) =
        (if 2 ∈ wstoreC3.allTopicReceivers then 1 else 0) +
        (if 2 ∈ wstoreC3.receiversOf "t" then 1 else 0) :=
  ⟨by decide, by decide, by decide,
   (C3_set_value_delivery Nat wstoreC3 "t" 9).2.2.2.2.2.2.2
     (by decide) (by decide) 2 (by decide)⟩

/-- C8: `register_component` returns `-1` (no exception) and leaves the
registry unchanged when the component object is already registered or the
instance name is in use; on success it returns the fresh id
`last_comp_id + 1` and appends the entry in state REGISTERED; the fresh id is
unused whenever all existing ids are at most `last_comp_id`. -/
theorem C8_register_component (m : ComponentManager) (component : Nat)
    (instanceName : String) :
    (component ∈ m.components.map (fun e => e.2.component) →
      m.registerComponent component instanceName = (-1, m))
    ∧ (instanceName ∈ m.components.map (fun e => e.2.instanceName) →
      m.registerComponent component instanceName = (-1, m))
    ∧ (component ∉ m.components.map (fun e => e.2.component) →
       instanceName ∉ m.components.map (fun e => e.2.instanceName) →
      (m.registerComponent component instanceName).1 = Int.ofNat (m.lastCompId + 1)
      ∧ (m.registerComponent component instanceName).2.components =
          m.components ++
            [(m.lastCompId + 1,
              { component := component, compId := m.lastCompId + 1,
                instanceName := instanceName, state := CompState.registered })]
      ∧ ((∀ p ∈ m.components, p.1 ≤ m.lastCompId) →
          (m.lastCompId + 1) ∉ m.components.map (fun p => p.1))) := by
  refine ⟨?_, ?_, ?_⟩
  · intro h
    simp [ComponentManager.registerComponent, h]
  · intro h
    simp only [ComponentManager.registerComponent]
    by_cases hc : component ∈ m.components.map (fun e => e.2.component) <;> simp [hc, h]
  · intro hc hn
    refine ⟨?_, ?_, ?_⟩
    · simp [ComponentManager.registerComponent, hc, hn]
    · simp [ComponentManager.registerComponent, hc, hn]
    · intro hb hmem
      rcases List.mem_map.mp hmem with ⟨p, hp, hid⟩
      have := hb p hp
      omega

theorem C8_register_component_witness :
    ((5 : Nat) ∈ wmgrC8.components.map (fun e => e.2.component) ∧
      wmgrC8.registerComponent 5 "b" = (-1, wmgrC8))
    ∧ ("a" ∈ wmgrC8.components.map (fun e => e.2.instanceName) ∧
      wmgrC8.registerComponent 6 "a" = (-1, wmgrC8))
    ∧ ((wmgrC8.registerComponent 6 "b").1 = Int.ofNat (wmgrC8.lastCompId + 1)
      ∧ (wmgrC8.registerComponent 6 "b").2.components =
          wmgrC8.components ++
            [(wmgrC8.lastCompId + 1,
              { component := 6, compId := wmgrC8.lastCompId + 1,
                instanceName := "b", state := CompState.registered })]
      ∧ ((∀ p ∈ wmgrC8.components, p.1 ≤ wmgrC8.lastCompId) →
          (wmgrC8.lastCompId + 1) ∉ wmgrC8.components.map (fun p => p.1))) :=
  ⟨⟨by decide, (C8_register_component wmgrC8 5 "b").1 (by decide)⟩,
   ⟨by decide, (C8_register_component wmgrC8 6 "a").2.1 (by decide)⟩,
   (C8_register_component wmgrC8 6 "b").2.2 (by decide) (by decide)⟩

/-- C2 counterexample: the claim says that in UP, a cyclic step at which no
matching pong has arrived within `pong_timeout` of the last one moves the
state to DOWN. The reachable tracker state `wtrackerC2` is UP with its last
pong overdue at time 5500, yet `run_cyclic` at 5500 leaves the tracker
unchanged (still UP): the code only evaluates the pong timeout on cyclic
steps that also send a ping. -/
theorem C2_up_timeout_counterexample :
    wtrackerC2.remoteState = RemoteState.up
    ∧ wtrackerC2.lastPongTime + wtrackerC2.pongTimeout < 5500
    ∧ (wtrackerC2.runCyclic 5500).1 = wtrackerC2
    ∧ ¬ (wtrackerC2.runCyclic 5500).1.remoteState = RemoteState.down := by
  decide

/-- C2 (amended): the tracker starts in UNSURE at `ping_interval_min`; in
UNSURE, a cyclic step past the ping deadline sends one ping (with the next
nonce), doubles the interval, and moves to DOWN exactly when the doubled
interval exceeds `ping_interval_max` (staying in UNSURE otherwise); a pong
carrying the current nonce promotes UNSURE to UP; and in UP, a cyclic step
that sends a ping (is past the ping deadline) and at which no matching pong
has arrived within `pong_timeout` of the last one moves the state to DOWN. -/
theorem C2_heartbeat_state_machine (imin imax ptimeout f0 : Nat)
    (t : RemoteStatusTracker) (now : Nat) :
    ((RemoteStatusTracker.init imin imax ptimeout f0).remoteState = RemoteState.unsure
      ∧ (RemoteStatusTracker.init imin imax ptimeout f0).pingInterval = imin)
    ∧ (t.remoteState = RemoteState.unsure → t.lastPingTime + t.pingInterval < now →
        (t.runCyclic now).2 = [t.pingFreshness + 1]
        ∧ (t.runCyclic now).1.pingInterval = 2 * t.pingInterval
        ∧ ((t.runCyclic now).1.remoteState = RemoteState.down ↔
            t.pingIntervalMax < 2 * t.pingInterval)
        ∧ (¬ t.pingIntervalMax < 2 * t.pingInterval →
            (t.runCyclic now).1.remoteState = RemoteState.unsure))
    ∧ (t.remoteState = RemoteState.unsure →
        (t.pongReceived t.pingFreshness now).remoteState = RemoteState.up)
    ∧ (t.remoteState = RemoteState.up → t.lastPingTime + t.pingInterval < now →
        t.lastPongTime + t.pongTimeout < now →
        (t.runCyclic now).1.remoteState = RemoteState.down) := by
  refine ⟨⟨rfl, rfl⟩, ?_, ?_, ?_⟩
  · intro hs hdue
    by_cases hmax : t.pingIntervalMax < 2 * t.pingInterval <;>
      simp [RemoteStatusTracker.runCyclic, RemoteStatusTracker.sendPing,
            RemoteStatusTracker.setRemoteState, hs, hdue, hmax]
  · intro hs
    simp [RemoteStatusTracker.pongReceived, RemoteStatusTracker.setRemoteState, hs]
  · intro hs hdue hpong
    simp [RemoteStatusTracker.runCyclic, RemoteStatusTracker.sendPing,
          RemoteStatusTracker.setRemoteState, hs, hdue, hpong]

theorem C2_heartbeat_state_machine_witness :
    (wtrackerInit.remoteState = RemoteState.unsure
      ∧ wtrackerInit.lastPingTime + wtrackerInit.pingInterval < 101
      ∧ ((wtrackerInit.runCyclic 101).2 = [wtrackerInit.pingFreshness + 1]
        ∧ (wtrackerInit.runCyclic 101).1.pingInterval = 2 * wtrackerInit.pingInterval
        ∧ ((wtrackerInit.runCyclic 101).1.remoteState = RemoteState.down ↔
            wtrackerInit.pingIntervalMax < 2 * wtrackerInit.pingInterval)
        ∧ (¬ wtrackerInit.pingIntervalMax < 2 * wtrackerInit.pingInterval →
            (wtrackerInit.runCyclic 101).1.remoteState = RemoteState.unsure)))
    ∧ ((wtrackerInit.pongReceived wtrackerInit.pingFreshness 50).remoteState = RemoteState.up)
    ∧ (wtrackerC2.remoteState = RemoteState.up
      ∧ wtrackerC2.lastPingTime + wtrackerC2.pingInterval < 6300
      ∧ wtrackerC2.lastPongTime + wtrackerC2.pongTimeout < 6300
      ∧ (wtrackerC2.runCyclic 6300).1.remoteState = RemoteState.down) :=
  ⟨⟨by decide, by decide,
    (C2_heartbeat_state_machine 100 3000 5000 0 wtrackerInit 101).2.1 (by decide) (by decide)⟩,
   (C2_heartbeat_state_machine 100 3000 5000 0 wtrackerInit 50).2.2.1 (by decide),
   ⟨by decide, by decide, by decide,
    (C2_heartbeat_state_machine 100 3000 5000 0 wtrackerC2 6300).2.2.2
      (by decide) (by decide) (by decide)⟩⟩

/-- C6: a pong whose freshness differs from the most recent ping's nonce
leaves the whole tracker state unchanged: remote state, ping interval,
last-ping and last-pong timestamps and the freshness nonce. -/
theorem C6_stale_pong_is_frame (t : RemoteStatusTracker) (freshness now : Nat)
    (h : freshness ≠ t.pingFreshness) :
    t.pongReceived freshness now = t := by
  simp [RemoteStatusTracker.pongReceived, h]

theorem C6_stale_pong_is_frame_witness :
    (7 : Nat) ≠ wtrackerC2.pingFreshness ∧ wtrackerC2.pongReceived 7 123 = wtrackerC2 :=
  ⟨by decide, C6_stale_pong_is_frame wtrackerC2 7 123 (by decide)⟩

theorem handleSendSingle_of_pending (rule : SendRuleM α) (reply : String → SendReply)
    (storeVal : String → Option α) (hp : rule.state.sendPending = true) :
    handleSendSingle rule reply storeVal = (rule, []) := by
  simp [handleSendSingle, hp]

theorem handleSendPass_pending_invariant (s : SendSide α) (connected : Bool)
    (reply : String → SendReply) (storeVal : String → Option α) (key : String)
    (hpend : ∀ p ∈ s.sendRules, p.1 = key → p.2.state.sendPending = true) :
    (∀ p ∈ (handleSendPass s connected reply storeVal).1.sendRules, p.1 = key →
      p.2.state.sendPending = true)
    ∧ (∀ p ∈ (handleSendPass s connected reply storeVal).2, p.1 = key → p.2 = []) := by
  unfold handleSendPass
  by_cases hc : ¬ s.inited ∨ ¬ connected
  · simp only [hc, if_pos]
    exact ⟨hpend, by intro p hp; simp at hp⟩
  · simp only [hc, if_neg, not_false_eq_true]
    constructor
    · intro p hp hk
      simp only [List.map_map, List.mem_map, Function.comp] at hp
      obtain ⟨kr, hkr, hpe⟩ := hp
      rw [← hpe] at hk ⊢
      simp only at hk ⊢
      rw [handleSendSingle_of_pending kr.2 reply storeVal (hpend kr hkr hk)]
      exact hpend kr hkr hk
    · intro p hp hk
      simp only [List.map_map, List.mem_map, Function.comp] at hp
      obtain ⟨kr, hkr, hpe⟩ := hp
      rw [← hpe] at hk ⊢
      simp only at hk ⊢
      rw [handleSendSingle_of_pending kr.2 reply storeVal (hpend kr hkr hk)]

theorem clearSendPendingAt_other (s : SendSide α) (topic key : String) (hne : topic ≠ key)
    (hpend : ∀ p ∈ s.sendRules, p.1 = key → p.2.state.sendPending = true) :
    ∀ p ∈ (clearSendPendingAt s topic).sendRules, p.1 = key →
      p.2.state.sendPending = true := by
  intro p hp hk
  simp only [clearSendPendingAt, List.mem_map] at hp
  obtain ⟨kr, hkr, hpe⟩ := hp
  by_cases h : kr.1 = topic
  · rw [if_pos h] at hpe
    rw [← hpe] at hk
    simp only at hk
    exact absurd (h ▸ hk) hne
  · rw [if_neg h] at hpe
    rw [← hpe] at hk ⊢
    exact hpend kr hkr hk

theorem clearSendPendingAt_self (s : SendSide α) (key : String) :
    ∀ p ∈ (clearSendPendingAt s key).sendRules, p.1 = key →
      p.2.state.sendPending = false := by
  intro p hp hk
  simp only [clearSendPendingAt, List.mem_map] at hp
  obtain ⟨kr, hkr, hpe⟩ := hp
  by_cases h : kr.1 = key
  · rw [if_pos h] at hpe
    rw [← hpe]
  · rw [if_neg h] at hpe
    rw [← hpe] at hk
    exact absurd hk h

theorem arrivalStep_pending_invariant (s : SendSide α) (topic : String) (v : α) (key : String)
    (hpend : ∀ p ∈ s.sendRules, p.1 = key → p.2.state.sendPending = true) :
    ∀ p ∈ (arrivalStep s topic v).sendRules, p.1 = key →
      p.2.state.sendPending = true := by
  intro p hp hk
  simp only [arrivalStep, List.mem_map] at hp
  obtain ⟨kr, hkr, hpe⟩ := hp
  by_cases h : kr.2.topic = topic
  · rw [if_pos h] at hpe
    rw [← hpe] at hk ⊢
    exact hpend kr hkr hk
  · rw [if_neg h] at hpe
    rw [← hpe] at hk ⊢
    exact hpend kr hkr hk

theorem bridgeRun_pending_invariant (key : String) (trace : List (BridgeEvent α)) :
    ∀ (s : SendSide α),
    (∀ p ∈ s.sendRules, p.1 = key → p.2.state.sendPending = true) →
    (∀ e ∈ trace, e ≠ BridgeEvent.blockedInjected key ∧
                  e ≠ BridgeEvent.blockedRejected key) →
    (∀ p ∈ (bridgeRun s trace).2, p.1 = key → p.2 = [])
    ∧ (∀ p ∈ (bridgeRun s trace).1.sendRules, p.1 = key →
        p.2.state.sendPending = true) := by
  induction trace with
  | nil =>
    intro s hpend _
    exact ⟨by intro p hp; simp [bridgeRun] at hp, by simpa [bridgeRun] using hpend⟩
  | cons e rest ih =>
    intro s hpend hno
    have hrest : ∀ x ∈ rest, x ≠ BridgeEvent.blockedInjected key ∧
        x ≠ BridgeEvent.blockedRejected key :=
      fun x hx => hno x (List.mem_cons_of_mem e hx)
    have hstep : (∀ p ∈ (bridgeStep s e).2, p.1 = key → p.2 = [])
        ∧ (∀ p ∈ (bridgeStep s e).1.sendRules, p.1 = key →
            p.2.state.sendPending = true) := by
      cases e with
      | sendPass connected reply storeVal =>
        have h := handleSendPass_pending_invariant s connected reply storeVal key hpend
        exact ⟨h.2, h.1⟩
      | blockedInjected topic =>
        have hne : topic ≠ key := by
          intro h
          exact (hno _ (List.mem_cons_self _ _)).1 (by rw [h])
        exact ⟨by intro p hp; simp [bridgeStep] at hp,
               clearSendPendingAt_other s topic key hne hpend⟩
      | blockedRejected topic =>
        have hne : topic ≠ key := by
          intro h
          exact (hno _ (List.mem_cons_self _ _)).2 (by rw [h])
        exact ⟨by intro p hp; simp [bridgeStep] at hp,
               clearSendPendingAt_other s topic key hne hpend⟩
      | arrival topic v =>
        exact ⟨by intro p hp; simp [bridgeStep] at hp,
               arrivalStep_pending_invariant s topic v key hpend⟩
    have hrec := ih (bridgeStep s e).1 hstep.2 hrest
    constructor
    · intro p hp hk
      have hsplit : bridgeRun s (e :: rest) =
          ((bridgeRun (bridgeStep s e).1 rest).1,
           (bridgeStep s e).2 ++ (bridgeRun (bridgeStep s e).1 rest).2) := rfl
      rw [hsplit] at hp
      simp only [List.mem_append] at hp
      rcases hp with hp | hp
      · exact hstep.1 p hp hk
      · exact hrec.1 p hp hk
    · intro p hp hk
      have hsplit : (bridgeRun s (e :: rest)).1 = (bridgeRun (bridgeStep s e).1 rest).1 := rfl
      rw [hsplit] at hp
      exact hrec.2 p hp hk

/-- C1: while a send rule's `send_pending` flag is set (a send was answered
`RECEIVED`), no trace of send cycles, other-topic control messages and new
value arrivals makes the service send any value for that rule, and the flag
stays set; a `valueInjected`/`valueRejected` control message for the rule's
own topic clears `send_pending`; and a `RECEIVED` reply to a queue send is
exactly what sets `send_pending`. -/
theorem C1_received_blocks_sends_until_cleared (α : Type) (s : SendSide α) (key : String)
    (trace : List (BridgeEvent α))
    (hpend : ∀ p ∈ s.sendRules, p.1 = key → p.2.state.sendPending = true)
    (hno : ∀ e ∈ trace, e ≠ BridgeEvent.blockedInjected key ∧
                        e ≠ BridgeEvent.blockedRejected key) :
    (∀ p ∈ (bridgeRun s trace).2, p.1 = key → p.2 = [])
    ∧ (∀ p ∈ (bridgeRun s trace).1.sendRules, p.1 = key → p.2.state.sendPending = true)
    ∧ (∀ (s' : SendSide α), ∀ p ∈ (clearSendPendingAt s' key).sendRules, p.1 = key →
        p.2.state.sendPending = false)
    ∧ (∀ (rule : SendRuleM α) (reply : String → SendReply) (storeVal : String → Option α)
        (q : ValueQueue α) (v : α) (t : String) (restq : List (α × String)),
        rule.queue = some q → q.queue = (v, t) :: restq →
        reply rule.topic = SendReply.received →
        (handleSendSingle rule reply storeVal).1.state.sendPending = true) := by
  obtain ⟨hemit, hinv⟩ := bridgeRun_pending_invariant key trace s hpend hno
  refine ⟨hemit, hinv, fun s' => clearSendPendingAt_self s' key, ?_⟩
  intro rule reply storeVal q v t restq hq hqq hr
  by_cases hp : rule.state.sendPending = true
  · rw [handleSendSingle_of_pending rule reply storeVal hp]
    exact hp
  · simp only [handleSendSingle, hp, if_neg, Bool.not_eq_true] at *
    have hne : ¬ q.isEmptyQ := by
      simp [ValueQueue.isEmptyQ, hqq]
    simp [hq, hqq, hne, hr, hp]

theorem C1_received_blocks_sends_until_cleared_witness :
    (∀ p ∈ wsendC1.sendRules, p.1 = "rt" → p.2.state.sendPending = true)
    ∧ ((∀ p ∈ (bridgeRun wsendC1 wtraceC1).2, p.1 = "rt" → p.2 = [])
    ∧ (∀ p ∈ (bridgeRun wsendC1 wtraceC1).1.sendRules, p.1 = "rt" →
        p.2.state.sendPending = true)
    ∧ (∀ (s' : SendSide Nat), ∀ p ∈ (clearSendPendingAt s' "rt").sendRules, p.1 = "rt" →
        p.2.state.sendPending = false)
    ∧ (∀ (rule : SendRuleM Nat) (reply : String → SendReply)
        (storeVal : String → Option Nat) (q : ValueQueue Nat) (v : Nat) (t : String)
        (restq : List (Nat × String)),
        rule.queue = some q → q.queue = (v, t) :: restq →
        reply rule.topic = SendReply.received →
        (handleSendSingle rule reply storeVal).1.state.sendPending = true)) :=
  ⟨by decide,
   C1_received_blocks_sends_until_cleared Nat wsendC1 "rt" wtraceC1 (by decide)
     (by
       intro e he
       simp only [wtraceC1, List.mem_cons, List.not_mem_nil, or_false] at he
       rcases he with rfl | rfl | rfl | rfl | rfl <;>
         exact ⟨by simp, by simp⟩)⟩

/-- C9: `value_received` returns `"REJECTED"` leaving the store unchanged
when the service is not initialized or no receive rule exists for the topic;
with a rule whose reserved `pending_value` slot is empty (the only state the
code can produce, since nothing ever populates it) it writes the value to
the store under the topic and returns `"INJECTED"`; it never returns
`"RECEIVED"`, and it never touches the receive rules (so `pending_value`
stays empty). -/
theorem C9_value_received_cases (α : Type) (s : RecvSide α) (topic : String) (v : α) :
    (s.inited = false → valueReceived s topic v = ("REJECTED", s))
    ∧ (lookupKey topic s.receiveRules = none → valueReceived s topic v = ("REJECTED", s))
    ∧ (∀ r, s.inited = true → lookupKey topic s.receiveRules = some r →
        r.pendingValue = none →
        valueReceived s topic v =
          ("INJECTED", { s with store := (s.store.setValueSome topic v).1 })
        ∧ (valueReceived s topic v).2.store.getValue topic = some v)
    ∧ (valueReceived s topic v).1 ≠ "RECEIVED"
    ∧ (valueReceived s topic v).2.receiveRules = s.receiveRules := by
  refine ⟨?_, ?_, ?_, ?_, ?_⟩
  · intro h
    simp [valueReceived, h]
  · intro h
    by_cases hi : s.inited
    · simp [valueReceived, hi, h]
    · simp [valueReceived, hi]
  · intro r hi hr hp
    have : valueReceived s topic v =
        ("INJECTED", { s with store := (s.store.setValueSome topic v).1 }) := by
      simp [valueReceived, hi, hr, hp]
    refine ⟨this, ?_⟩
    rw [this]
    exact getValue_setValueSome_self s.store topic v
  · by_cases hi : s.inited
    · cases hr : lookupKey topic s.receiveRules with
      | none => simp [valueReceived, hi, hr]
      | some r =>
        by_cases hp : r.pendingValue.isSome <;> simp [valueReceived, hi, hr, hp]
    · simp [valueReceived, hi]
  · by_cases hi : s.inited
    · cases hr : lookupKey topic s.receiveRules with
      | none => simp [valueReceived, hi, hr]
      | some r =>
        by_cases hp : r.pendingValue.isSome <;> simp [valueReceived, hi, hr, hp]
    · simp [valueReceived, hi]

theorem C9_value_received_cases_witness :
    wrecvC9.inited = true
    ∧ lookupKey "rt" wrecvC9.receiveRules =
        some { topic := "lt", pendingValue := none }
    ∧ (valueReceived wrecvC9 "rt" 5 =
        ("INJECTED", { wrecvC9 with store := (wrecvC9.store.setValueSome "rt" 5).1 })
      ∧ (valueReceived wrecvC9 "rt" 5).2.store.getValue "rt" = some 5)
    ∧ (valueReceived { wrecvC9 with inited := false } "rt" 5 =
        ("REJECTED", { wrecvC9 with inited := false })) :=
  ⟨rfl, by decide,
   (C9_value_received_cases Nat wrecvC9 "rt" 5).2.2.1
     { topic := "lt", pendingValue := none } rfl (by decide) rfl,
   (C9_value_received_cases Nat { wrecvC9 with inited := false } "rt" 5).1 rfl⟩

/-- C7: one write-loop iteration pops the oldest pending entry and drops it
(setting the status monitor's drop flag, never blocking) exactly when the
pending-write queue depth (the popped entry included) exceeds the configured
limit — except that an entry on the recorder status topic is always
serialized; an empty queue just ends the drain. -/
theorem C7_write_loop_drop_policy (α : Type) (q : RecQueue α) (limit : Nat) (mon : MonState) :
    (q.deque = [] → writeStep q limit mon = (q, mon, WriteOutcome.idle))
    ∧ (∀ t top v rest, q.deque = (t, top, v) :: rest →
        writeStep q limit mon =
          (if rest.length < limit ∨ top = recorderStatusTopic
           then ({ deque := rest }, mon, WriteOutcome.serializedItem top v)
           else ({ deque := rest }, reportDropped mon, WriteOutcome.droppedItem top v)))
    ∧ (∀ t top v rest, q.deque = (t, top, v) :: rest →
        ((writeStep q limit mon).2.2 = WriteOutcome.droppedItem top v ↔
          (limit < q.deque.length ∧ top ≠ recorderStatusTopic)))
    ∧ (∀ t top v rest, q.deque = (t, top, v) :: rest →
        limit < q.deque.length → top ≠ recorderStatusTopic →
        (writeStep q limit mon).2.1.dropFlag = true) := by
  refine ⟨?_, ?_, ?_, ?_⟩
  · intro h
    simp [writeStep, RecQueue.popEntry, h]
  · intro t top v rest h
    by_cases hc : rest.length < limit ∨ top = recorderStatusTopic <;>
      simp [writeStep, RecQueue.popEntry, h, hc]
  · intro t top v rest h
    by_cases hc : rest.length < limit ∨ top = recorderStatusTopic
    · simp only [writeStep, RecQueue.popEntry, h, hc]
      constructor
      · intro hcontra
        simp at hcontra
      · intro hcon
        exfalso
        obtain ⟨h1, h2⟩ := hcon
        simp at h1
        rcases hc with hc | hc
        · omega
        · exact h2 hc
    · simp only [writeStep, RecQueue.popEntry, h, hc]
      push_neg at hc
      constructor
      · intro _
        refine ⟨?_, hc.2⟩
        simp
        omega
      · intro _
        simp
  · intro t top v rest h h1 h2
    have hc : ¬ (rest.length < limit ∨ top = recorderStatusTopic) := by
      rw [h] at h1
      simp at h1
      push_neg
      exact ⟨by omega, h2⟩
    simp [writeStep, RecQueue.popEntry, h, hc, reportDropped]

theorem C7_write_loop_drop_policy_witness :
    wrecQC7.deque = (10, "cam", 1) :: [(11, "cam", 2)]
    ∧ ((writeStep wrecQC7 1 { dropFlag := false, dropCount := 0 }).2.2 =
          WriteOutcome.droppedItem "cam" 1 ↔
        (1 < wrecQC7.deque.length ∧ "cam" ≠ recorderStatusTopic))
    ∧ (writeStep wrecQC7 1 { dropFlag := false, dropCount := 0 }).2.1.dropFlag = true
    ∧ (writeStep wrecQC7s 1 { dropFlag := false, dropCount := 0 }).2.2 =
        WriteOutcome.serializedItem "/mcf/recorder/status" 3 :=
  ⟨rfl,
   (C7_write_loop_drop_policy Nat wrecQC7 1 { dropFlag := false, dropCount := 0 }).2.2.1
     10 "cam" 1 [(11, "cam", 2)] rfl,
   (C7_write_loop_drop_policy Nat wrecQC7 1 { dropFlag := false, dropCount := 0 }).2.2.2
     10 "cam" 1 [(11, "cam", 2)] rfl (by decide) (by decide),
   by decide⟩

theorem extmemData_length (r : RecordInput) :
    r.extmemData.length = if r.packExtmem = true then
      (if r.csize = 0 then r.usize else r.csize) else 0 := by
  cases hpe : r.packExtmem with
  | false => simp [RecordInput.extmemData, hpe]
  | true =>
    cases hce : r.compressEnabled with
    | false =>
      simp [RecordInput.extmemData, RecordInput.usize, RecordInput.csize, hpe, hce]
    | true =>
      simp [RecordInput.extmemData, RecordInput.usize, RecordInput.csize, hpe, hce,
            modelCompress]

theorem serializeRecord_length (r : RecordInput) :
    (serializeRecord r).length = 3 + r.extmemData.length := by
  simp [serializeRecord, headerEntries]
  omega

theorem parseOne_none_of_end (file : List FileEntry) (pos : Nat)
    (h : file.drop pos = []) : parseOne file pos = none := by
  unfold parseOne
  rw [h]

theorem parseOne_at (r : RecordInput) (pre rest : List FileEntry) :
    parseOne ((pre ++ serializeRecord r) ++ rest) pre.length =
      some (recordOf r pre.length, pre.length + (serializeRecord r).length) := by
  have hdrop : ((pre ++ serializeRecord r) ++ rest).drop pre.length =
      serializeRecord r ++ rest := by
    rw [List.append_assoc]
    exact List.drop_left pre _
  unfold parseOne
  rw [hdrop]
  rw [serializeRecord_length]
  cases hpe : r.packExtmem with
  | false =>
    simp [serializeRecord, headerEntries, RecordInput.usize, RecordInput.csize,
          RecordInput.extmemData, recordOf, hpe]
  | true =>
    cases hce : r.compressEnabled with
    | false =>
      simp [serializeRecord, headerEntries, RecordInput.usize, RecordInput.csize,
            RecordInput.extmemData, recordOf, hpe, hce]
      omega
    | true =>
      have hne : ¬ ((r.blob.length : Int) + 1 = 0) := by omega
      simp [serializeRecord, headerEntries, RecordInput.usize, RecordInput.csize,
            RecordInput.extmemData, recordOf, hpe, hce, modelCompress, hne]
      omega

theorem parseRecords_writeAll (inputs : List RecordInput) :
    ∀ (pre : List FileEntry) (fuel : Nat), inputs.length ≤ fuel →
    parseRecords (pre ++ writeAll inputs) pre.length fuel =
      expectedRecords inputs pre.length := by
  induction inputs with
  | nil =>
    intro pre fuel _
    cases fuel with
    | zero => rfl
    | succ n =>
      have hend : (pre ++ writeAll []).drop pre.length = [] := by
        simp [writeAll]
      simp [parseRecords, parseOne_none_of_end _ _ hend, expectedRecords]
  | cons r rs ih =>
    intro pre fuel hfuel
    cases fuel with
    | zero => simp at hfuel
    | succ n =>
      have hw : pre ++ writeAll (r :: rs) = (pre ++ serializeRecord r) ++ writeAll rs := by
        simp [writeAll, List.append_assoc]
      rw [hw]
      have hp := parseOne_at r pre (writeAll rs)
      simp only [parseRecords, hp]
      have hlen : pre.length + (serializeRecord r).length =
          (pre ++ serializeRecord r).length := by
        simp
      rw [hlen, ih (pre ++ serializeRecord r) n (by simpa using hfuel)]
      simp [expectedRecords]

theorem entryBytes_map_byte (l : List Nat) :
    entryBytes (l.map FileEntry.byte) = some l := by
  induction l with
  | nil => rfl
  | cons b rest ih => simp [entryBytes, ih]

theorem getExtmem_eval (file : List FileEntry) (rec : RecordOut) (seg : List FileEntry)
    (h : file.drop rec.extmemIndex = seg) :
    getExtmem file rec =
      (if rec.extmemPresent then
        if rec.extmemSizeCompressed ≠ 0 then
          match entryBytes (seg.take rec.extmemSizeCompressed) with
          | some bs => some (modelDecompress bs)
          | none => none
        else entryBytes (seg.take rec.extmemSize)
      else none) := by
  rw [← h]
  rfl

theorem getExtmem_at (r : RecordInput) (pre rest : List FileEntry) :
    getExtmem ((pre ++ serializeRecord r) ++ rest) (recordOf r pre.length) =
      (if r.packExtmem then some r.blob else none) := by
  have hdrop : ((pre ++ serializeRecord r) ++ rest).drop ((recordOf r pre.length).extmemIndex) =
      r.extmemData.map FileEntry.byte ++ rest := by
    have hshape : (pre ++ serializeRecord r) ++ rest =
        (pre ++ headerEntries r) ++ (r.extmemData.map FileEntry.byte ++ rest) := by
      simp [serializeRecord, List.append_assoc]
    rw [hshape]
    exact List.drop_left' (by simp [headerEntries, recordOf])
  rw [getExtmem_eval _ _ _ hdrop]
  cases hpe : r.packExtmem with
  | false =>
    simp [recordOf, hpe]
  | true =>
    cases hce : r.compressEnabled with
    | false =>
      have hcs : r.csize = 0 := by simp [RecordInput.csize, hce]
      have hus : r.usize = r.blob.length := by simp [RecordInput.usize, hpe]
      have hdata : r.extmemData = r.blob := by simp [RecordInput.extmemData, hpe, hce]
      simp [recordOf, hpe, hcs, hus, hdata]
      exact entryBytes_map_byte r.blob
    | true =>
      have hcs : r.csize = r.blob.length + 1 := by
        simp [RecordInput.csize, hpe, hce, modelCompress]
      have hdata : r.extmemData = modelCompress r.blob := by
        simp [RecordInput.extmemData, hpe, hce]
      simp [recordOf, hpe, hcs, hdata, modelCompress, modelDecompress, entryBytes,
            entryBytes_map_byte]

theorem expectedRecords_match (inputs : List RecordInput) :
    ∀ (pre rest : List FileEntry),
    List.Forall₂ (RoundTripMatches ((pre ++ writeAll inputs) ++ rest)) inputs
      (expectedRecords inputs pre.length) := by
  induction inputs with
  | nil =>
    intro pre rest
    simp [expectedRecords]
  | cons r rs ih =>
    intro pre rest
    have hfile : (pre ++ writeAll (r :: rs)) ++ rest =
        ((pre ++ serializeRecord r) ++ writeAll rs) ++ rest := by
      simp [writeAll, List.append_assoc]
    rw [hfile]
    simp only [expectedRecords]
    constructor
    · refine ⟨rfl, rfl, rfl, rfl, rfl, ?_⟩
      have hshape : ((pre ++ serializeRecord r) ++ writeAll rs) ++ rest =
          (pre ++ serializeRecord r) ++ (writeAll rs ++ rest) := by
        simp [List.append_assoc]
      rw [hshape]
      exact getExtmem_at r pre (writeAll rs ++ rest)
    · have hlen : pre.length + (serializeRecord r).length =
          (pre ++ serializeRecord r).length := by
        simp
      rw [hlen]
      exact ih (pre ++ serializeRecord r) rest

theorem length_le_writeAll (inputs : List RecordInput) :
    inputs.length ≤ (writeAll inputs).length := by
  induction inputs with
  | nil => simp [writeAll]
  | cons r rs ih =>
    have : writeAll (r :: rs) = serializeRecord r ++ writeAll rs := by
      simp [writeAll]
    rw [this]
    simp [serializeRecord_length]
    omega

/-- C5: round trip through the record framing. For every sequence of records
written by `_serialize` (any mix of ExtMem present/absent and
compressed/uncompressed), `records_generator` reads back exactly one record
per written record with identical topic, type name, value id and payload,
and `get_extmem` returns exactly the original ExtMem bytes (after inflating
by the declared sizes) whenever ExtMem was packed, `None` otherwise. -/
theorem C5_record_framing_roundtrip (inputs : List RecordInput) :
    List.Forall₂ (RoundTripMatches (writeAll inputs)) inputs
      (readerRecords (writeAll inputs)) := by
  have hparse := parseRecords_writeAll inputs [] (writeAll inputs).length
    (length_le_writeAll inputs)
  have hmatch := expectedRecords_match inputs [] []
  simp only [List.nil_append, List.append_nil, List.length_nil] at hparse hmatch
  unfold readerRecords
  rw [hparse]
  exact hmatch

theorem C10_empty_queue_peek_pop_witness :
    wqEmpty.queue = [] ∧
    (wqEmpty.peekWithTopic = none
    ∧ wqEmpty.popWithTopic = (none, wqEmpty)
    ∧ wqEmpty.peekFront = Except.error PyErr.typeError
    ∧ wqEmpty.popFront = (Except.error PyErr.typeError, wqEmpty)) :=
  ⟨rfl, C10_empty_queue_peek_pop Nat wqEmpty rfl⟩

end MCF
